import Mathlib

/-!
Verification of the workspace execution service (`bash_server.py`).

The Python source is shallowly embedded: pure string manipulation is
translated to executable Lean functions on `String` / `List Char`,
stateful components (shell sessions, the undo history, the session map)
become explicit state passing, and fallible operations return
`Except String`.  Filesystem and subprocess I/O is abstracted: file
contents are passed in and returned, and the outcome of waiting on the
shell's stdout is an explicit oracle (`ReadOutcome`).

Python string builtins (`in`, `count`, `replace`, `splitlines`,
`split`, `rstrip`) are re-implemented with their CPython semantics
(left-to-right, non-overlapping matches; `splitlines` is modelled for
the line breaks `\n`, `\r\n` and `\r` — the exotic Unicode breaks the
service never meets are not modelled).  Functions that skip over a
matched pattern use a fuel argument equal to the scanned list's length,
which makes the recursion structural (so everything evaluates by
`decide`/`rfl`); the fuel is sufficient because every step consumes at
least one character.
-/

namespace BashServer

/-! ### Python string primitives -/

/-- Whether the first list is a leading segment of the second
(Python slice comparison `s[:len(pat)] == pat`). -/
def lpre : List Char → List Char → Bool
  | [], _ => true
  | _ :: _, [] => false
  | p :: ps, c :: cs => p = c && lpre ps cs

/-- Python `pat in s`, on character lists (second argument is the scanned list). -/
def containsL (pat : List Char) : List Char → Bool
  | [] => lpre pat []
  | c :: rest => lpre pat (c :: rest) || containsL pat rest

/-- Python `pat in s`. -/
def pyContains (s pat : String) : Bool := containsL pat.data s.data

/-- Non-overlapping, left-to-right occurrence count (Python `s.count(pat)`
for a non-empty `pat`); the fuel starts at the list's length. -/
def countGo (pat : List Char) : Nat → List Char → Nat
  | _, [] => 0
  | 0, _ => 0
  | fuel + 1, c :: rest =>
    if lpre pat (c :: rest) then 1 + countGo pat fuel ((c :: rest).drop pat.length)
    else countGo pat fuel rest

/-- Python `s.count(pat)` (an empty pattern counts `len(s) + 1`). -/
def pyCount (s pat : String) : Nat :=
  if pat = "" then s.data.length + 1
  else countGo pat.data s.data.length s.data

/-- Replace every non-overlapping occurrence, left to right (Python
`s.replace(pat, rep)` for a non-empty `pat`); fuel as in `countGo`. -/
def replaceAllGo (pat rep : List Char) : Nat → List Char → List Char
  | _, [] => []
  | 0, s => s
  | fuel + 1, c :: rest =>
    if lpre pat (c :: rest) then rep ++ replaceAllGo pat rep fuel ((c :: rest).drop pat.length)
    else c :: replaceAllGo pat rep fuel rest

/-- Python `s.replace(pat, rep)`; for an empty pattern CPython interleaves
the replacement around every character. -/
def pyReplaceAll (s pat rep : String) : String :=
  if pat = "" then ⟨rep.data ++ (s.data.map fun c => c :: rep.data).flatten⟩
  else ⟨replaceAllGo pat.data rep.data s.data.length s.data⟩

/-- Replace only the first occurrence (Python `s.replace(pat, rep, 1)`
for a non-empty `pat`). -/
def replaceFirstGo (pat rep : List Char) : List Char → List Char
  | [] => []
  | c :: rest =>
    if lpre pat (c :: rest) then rep ++ (c :: rest).drop pat.length
    else c :: replaceFirstGo pat rep rest

/-- Python `s.replace(pat, rep, 1)` (an empty pattern prepends `rep`). -/
def pyReplaceFirst (s pat rep : String) : String :=
  if pat = "" then rep ++ s
  else ⟨replaceFirstGo pat.data rep.data s.data⟩

/-- The text before the first occurrence of `pat` (Python
`s.partition(pat)[0]`; the whole string when `pat` does not occur). -/
def takeBeforeGo (pat : List Char) : List Char → List Char
  | [] => []
  | c :: rest => if lpre pat (c :: rest) then [] else c :: takeBeforeGo pat rest

/-- `s.partition(pat)[0]` for the non-empty patterns the source uses. -/
def takeBeforeStr (s pat : String) : String :=
  if pat = "" then ""
  else ⟨takeBeforeGo pat.data s.data⟩

/-- Python `s.split(sep)` for a single-character separator: every segment,
empty segments included. `acc` holds the current segment reversed. -/
def splitCharGo (sep : Char) (acc : List Char) : List Char → List (List Char)
  | [] => [acc.reverse]
  | c :: rest =>
    if c = sep then acc.reverse :: splitCharGo sep [] rest
    else splitCharGo sep (c :: acc) rest

/-- Python `s.splitlines()` restricted to the breaks `\r\n`, `\r`, `\n`:
normalise `\r\n` then `\r` to `\n`, split on `\n`, and drop the final
empty segment a trailing break leaves (CPython emits no such segment). -/
def pySplitlines (s : String) : List String :=
  match s.data with
  | [] => []
  | _ :: _ =>
    let L := splitCharGo '\n'
      [] (pyReplaceAll (pyReplaceAll s "\r\n" "\n") "\r" "\n").data
    (if L.getLast? = some [] then L.dropLast else L).map fun cs => ⟨cs⟩

/-- Python `"\n".join(lines)`. -/
def joinNL (lines : List String) : String :=
  ⟨List.intercalate ['\n'] (lines.map String.data)⟩

/-- Whether the string's final character is a line feed. -/
def endsWithNL (s : String) : Bool :=
  match s.data.getLast? with
  | some c => c = '\n'
  | none => false

/-- Python `s.rstrip('\n')`: drop every trailing line feed. -/
def rstripNL (s : String) : String :=
  ⟨(s.data.reverse.dropWhile fun c => c = '\n').reverse⟩

/-- Python `list.insert(i, x)` (`i` already bounds-checked by callers). -/
def pyInsert (l : List String) (i : Nat) (x : String) : List String :=
  l.take i ++ [x] ++ l.drop i

/-- A single apostrophe, kept out of string literals. -/
def quoteChar : String := ⟨[Char.ofNat 39]⟩

/-! ### File editor (`FileTool`): undo history and the text edits

`_file_history` maps a path to the list of prior contents, oldest first;
the edits below act on one file's content and history, file I/O
abstracted away (the caller passes the current content in). -/

/-- The push every mutating edit performs: `history.append(content)` then
`history.pop(0)` once the length exceeds two (`bash_server.py` lines
1072–1074 and the twins in `insert`/`delete_lines`). -/
def pushHistory (hist : List String) (content : String) : List String :=
  if (hist ++ [content]).length > 2 then (hist ++ [content]).drop 1
  else hist ++ [content]

/-- The `\r\n → \n` normalisation `replace` applies to both sides before
its second matching attempt (the `cmp_content`/`cmp_old` locals). -/
def normEOL (x : String) : String := pyReplaceAll x "\r\n" "\n"

/-- `FileTool.replace` on the file's content: exact match first; failing
that, retry with `\r\n` normalised to `\n` on both sides and convert the
result back to `\r\n` when the original content contained one.  Errors
raised inside the method's `try` are re-wrapped by its
`except Exception` clause, hence the `Failed to replace string:` prefix. -/
def replaceOp (content old new : String) (allOccurrences : Bool) (hist : List String) :
    Except String (String × List String) :=
  if pyContains content old then
    if allOccurrences then
      .ok (pyReplaceAll content old new, pushHistory hist content)
    else if pyCount content old > 1 then
      .error "Failed to replace string: Multiple occurrences found; set all_occurrences=True to replace all"
    else
      .ok (pyReplaceFirst content old new, pushHistory hist content)
  else
    if pyContains (normEOL content) (normEOL old) = false then
      .error ("Failed to replace string: " ++ quoteChar ++ old ++ quoteChar ++ " not found")
    else if allOccurrences then
      .ok
        (if pyContains content "\r\n" then
          pyReplaceAll (pyReplaceAll (normEOL content) (normEOL old) (normEOL new)) "\n" "\r\n"
         else
          pyReplaceAll (normEOL content) (normEOL old) (normEOL new),
         pushHistory hist content)
    else if pyCount (normEOL content) (normEOL old) > 1 then
      .error "Failed to replace string: Multiple occurrences found; set all_occurrences=True to replace all"
    else
      .ok
        (if pyContains content "\r\n" then
          pyReplaceAll (pyReplaceFirst (normEOL content) (normEOL old) (normEOL new)) "\n" "\r\n"
         else
          pyReplaceFirst (normEOL content) (normEOL old) (normEOL new),
         pushHistory hist content)

/-- `FileTool.insert`: `splitlines`, bounds-check `1 ≤ line ≤ n+1`, insert
before `line`, re-join with `\n`, push the prior content. -/
def insertOp (content : String) (line : Nat) (text : String) (hist : List String) :
    Except String (String × List String) :=
  if line < 1 ∨ line > (pySplitlines content).length + 1 then
    .error ("Failed to insert text: Line number " ++ toString line ++ " is out of range")
  else
    .ok (joinNL (pyInsert (pySplitlines content) (line - 1) text), pushHistory hist content)

/-- The lines `delete_lines` keeps: the Python
`[line for i, line in enumerate(file_lines, 1) if i not in lines_to_delete]`. -/
def keepLinesGo (toDelete : List Nat) (i : Nat) : List String → List String
  | [] => []
  | l :: rest =>
    if toDelete.contains i then keepLinesGo toDelete (i + 1) rest
    else l :: keepLinesGo toDelete (i + 1) rest

/-- The resulting line list of `delete_lines` on `content`. -/
def keepLines (content : String) (toDelete : List Nat) : List String :=
  keepLinesGo toDelete 1 (pySplitlines content)

/-- `FileTool.delete_lines`: drop the 1-based lines listed, re-join with
`\n`, push the prior content.  No failure besides I/O. -/
def deleteLinesOp (content : String) (toDelete : List Nat) (hist : List String) :
    Except String (String × List String) :=
  .ok (joinNL (keepLines content toDelete), pushHistory hist content)

/-- `FileTool.undo`: pop the newest snapshot and write it back; an empty
(or absent) history fails before anything is touched. -/
def undoOp (hist : List String) : Except String (String × List String) :=
  match hist.getLast? with
  | none => .error "No undo history available"
  | some prev => .ok (prev, hist.dropLast)

/-! ### Path guard (`FileTool._validate_path`)

Paths are modelled as strings in the canonical form `PurePath` keeps
(no duplicate slashes, no `.` segments, no trailing slash); `resolve()`
is modelled lexically — symlinks are out of scope. -/

/-- `WORKSPACE_DIR`, the fixed workspace root of the service. -/
def workspaceDir : String := "/project/workspace"

/-- `Path(p).is_absolute()` on POSIX. -/
def isAbsolutePath (p : String) : Bool :=
  match p.data with
  | '/' :: _ => true
  | _ => false

/-- Split at every `/` (segments kept in order, empties included). -/
def splitSlashGo (acc : List Char) : List Char → List (List Char)
  | [] => [acc.reverse]
  | c :: rest =>
    if c = '/' then acc.reverse :: splitSlashGo [] rest
    else splitSlashGo (c :: acc) rest

/-- Lexical resolution of `..` and `.` segments (`..` at the root stays
at the root, as `Path.resolve` does). -/
def resolveSegs (segs : List (List Char)) : List (List Char) :=
  segs.foldl
    (fun acc s =>
      if s = ['.', '.'] then acc.dropLast
      else if s = ['.'] then acc
      else acc ++ [s])
    []

/-- The resolved absolute form of an absolute path string: split into
segments, resolve `..`/`.`, re-join under the leading slash. -/
def resolveAbs (p : String) : String :=
  ⟨'/' :: List.intercalate ['/'] (resolveSegs ((splitSlashGo [] p.data).filter fun s => s ≠ []))⟩

/-- `str(full_path).startswith(str(base_path))`: a textual prefix test. -/
def strStartsWith (s base : String) : Bool := lpre base.data s.data

/-- Whether `r` (already resolved) lies at or below the directory `base`:
equal to it, or extending it past a path separator. -/
def isDescendant (r base : String) : Bool :=
  r = base || lpre (base.data ++ ['/']) r.data

/-- `FileTool._validate_path`: an absolute input is used verbatim, a
relative one is joined to the base and resolved; then the textual prefix
check against the base.  The `ToolError` raised by the check is caught
by the method's own `except Exception` and re-wrapped, hence the
`Invalid path:` prefix on the surfaced message. -/
def validate_path (base p : String) : Except String String :=
  if strStartsWith (if isAbsolutePath p then p else resolveAbs (base ++ "/" ++ p)) base then
    .ok (if isAbsolutePath p then p else resolveAbs (base ++ "/" ++ p))
  else
    .error "Invalid path: Path is outside the allowed base directory"

/-! ### Result envelopes and the `/file` endpoint -/

/-- The four-field `ToolResult` record. -/
structure ToolResultM where
  output : Option String
  error : Option String
  base64Image : Option String
  system : Option String
deriving DecidableEq, Repr

/-- `_shorten`: escape line feeds and truncate to 120 characters. -/
def shorten (text : String) : String :=
  if (pyReplaceAll text "\n" "\\n").data.length ≤ 120 then pyReplaceAll text "\n" "\\n"
  else ⟨(pyReplaceAll text "\n" "\\n").data.take 120⟩ ++ "..."

/-- The `replace` request pipeline: validate the path, run the edit, and
package the success message (file I/O abstracted: the file's current
content and history are passed in, the new ones returned). -/
def replaceRequest (base path old new : String) (allOccurrences : Bool)
    (content : String) (hist : List String) :
    Except String (ToolResultM × String × List String) :=
  match validate_path base path with
  | .error m => .error m
  | .ok _ =>
    match replaceOp content old new allOccurrences hist with
    | .error m => .error m
    | .ok (c2, h2) =>
      .ok
        ({ output := some ("Replaced \"" ++ shorten old ++ "\" with \"" ++ shorten new ++ "\""),
           error := none, base64Image := none, system := none }, c2, h2)

/-- The envelope a `replace` request produces (the endpoint only sees the
`ToolResult`). -/
def replaceEndpointBody (base path old new : String) (allOccurrences : Bool)
    (content : String) (hist : List String) : Except String ToolResultM :=
  (replaceRequest base path old new allOccurrences content hist).map Prod.fst

/-- `FileTool.__call__`: it catches `ToolError` from the dispatched
operation and converts it to an error envelope, so the call itself
always returns a `ToolResult` — it never re-raises a `ToolError`. -/
def fileToolCall (opResult : Except String ToolResultM) : Except String ToolResultM :=
  .ok
    (match opResult with
     | .ok res => res
     | .error m => { output := none, error := some m, base64Image := none, system := none })

/-- An HTTP response of the FastAPI layer: a 200 with an envelope body,
or an `HTTPException` with a status code. -/
inductive HttpResponse where
  | success (body : ToolResultM)
  | httpError (status : Nat) (detail : String)
deriving DecidableEq, Repr

/-- The status code of a response (FastAPI answers 200 for a plain
return value). -/
def httpStatus : HttpResponse → Nat
  | .success _ => 200
  | .httpError s _ => s

/-- `POST /file` (`file_action`): call the tool; map a `ToolError`
escaping the call to HTTP 400 (unreachable, since `fileToolCall` never
raises one). -/
def file_action (opResult : Except String ToolResultM) : HttpResponse :=
  match fileToolCall opResult with
  | .ok res => .success res
  | .error m => .httpError 400 m

/-! ### Shell session (`_BashSession`) -/

/-- The sentinel literal echoed after every wrapped command. -/
def sentinel : String := "<<exit>>"

/-- A `_BashSession`'s mutable state.  `stdoutBuf`/`stderrBuf` stand for
the bytes sitting unread in the stream readers' internal buffers;
`returncode` is the subprocess's exit code when it has exited. -/
structure SessionState where
  started : Bool
  isRunningCommand : Bool
  lastCommand : String
  partialOutput : String
  partialError : String
  returncode : Option Int
  stdoutBuf : String
  stderrBuf : String
  sessionId : Nat
deriving Repr

/-- The substrings whose lines `_filter_error_output` drops
(case-insensitive match). -/
def noiseSubstrings : List String :=
  ["failed to connect to the bus", "failed to call method", "viz_main_impl",
   "object_proxy", "dbus", "setting up watches", "watches established"]

/-- `_BashSession._filter_error_output`: drop one trailing line feed,
then drop every line containing a noise substring (lower-cased match). -/
def filterErrorOutput (error : String) : String :=
  if error = "" then error
  else
    joinNL
      (((splitCharGo '\n'
          [] (if error.data.getLast? = some '\n' then error.data.dropLast else error.data)).map
            fun cs => (⟨cs⟩ : String)).filter
        fun line =>
          ! noiseSubstrings.any fun pat => containsL pat.data (line.data.map Char.toLower))

/-- `_BashSession.check_command_completion`: not running means done;
otherwise peek at the pending stdout bytes, record them as partial
output, and clear the busy flag when the sentinel is among them. -/
def checkCommandCompletion (s : SessionState) : SessionState × Bool :=
  if s.isRunningCommand = false then (s, true)
  else if s.stdoutBuf = "" then (s, false)
  else if pyContains s.stdoutBuf sentinel then
    ({ s with partialOutput := s.stdoutBuf, isRunningCommand := false }, true)
  else
    ({ s with partialOutput := s.stdoutBuf }, false)

/-- The `system` message of `run`'s timeout branch.  (The Python f-string
renders the float timeout; the model carries the timeout as a natural
number, so `10` stands for the rendered number.) -/
def timeoutSystemMessage (timeout sessionId : Nat) : String :=
  "Process timed out after " ++ toString timeout ++
    " seconds. This process will continue to run in session " ++ toString sessionId ++ "."

/-- What waiting on `stdout.readuntil(sentinel)` did — the oracle for the
subprocess's behaviour.  `sentinelRead pre errData`: the read completed,
the stdout before the sentinel being `pre` and the pending stderr bytes
`errData`.  `timedOut arrivedOut arrivedErr`: the timeout elapsed with
those bytes sitting unread.  `streamError msg residOut residErr`: the
read failed (`IncompleteReadError`/`ConnectionResetError`) leaving those
residues.  (The `LimitOverrunError` chunked fallback is not modelled;
no claim touches it.) -/
inductive ReadOutcome where
  | sentinelRead (pre errData : String)
  | timedOut (arrivedOut arrivedErr : String)
  | streamError (msg residOut residErr : String)

/-- `_BashSession.run`: the not-started guard, the completion probe, the
exited-process and busy envelopes, then the wrapped-command write and
the wait, one branch per `ReadOutcome`.  (The stdin-write failure branch
is not modelled; no claim touches it.) -/
def runModel (s0 : SessionState) (command : String) (timeout : Nat) (outcome : ReadOutcome) :
    Except String (SessionState × ToolResultM) :=
  if s0.started = false then .error "Session has not started."
  else
    let s1 := (checkCommandCompletion s0).1
    match s1.returncode with
      | some rc =>
        .ok (s1,
          { output := none,
            error := some ("Bash has exited with returncode " ++ toString rc),
            base64Image := none,
            system := some ("Session " ++ toString s1.sessionId ++ " must be restarted") })
      | none =>
        if s1.isRunningCommand then
          .ok (s1,
            { output := none, error := none, base64Image := none,
              system := some ("A command is already running in this session (ID: " ++
                toString s1.sessionId ++
                "). Please use another session or check the status of the current command.") })
        else
          match outcome with
          | .sentinelRead pre errData =>
            .ok
              ({ s1 with partialOutput := pyReplaceAll (pre ++ sentinel) sentinel "",
                         partialError := errData, lastCommand := command,
                         isRunningCommand := false, stdoutBuf := "", stderrBuf := "" },
               { output := some (rstripNL (pyReplaceAll (pre ++ sentinel) sentinel "")),
                 error := some (filterErrorOutput errData),
                 base64Image := none, system := none })
          | .timedOut arrivedOut arrivedErr =>
            .ok
              ({ s1 with partialOutput := "", partialError := "", lastCommand := command,
                         isRunningCommand := true,
                         stdoutBuf := arrivedOut, stderrBuf := arrivedErr },
               { output := some "", error := some (filterErrorOutput ""),
                 base64Image := none,
                 system := some (timeoutSystemMessage timeout s1.sessionId) })
          | .streamError msg residOut residErr =>
            if pyContains residOut sentinel then
              .ok
                ({ s1 with partialOutput := residOut, partialError := residErr,
                           lastCommand := command, isRunningCommand := false,
                           stdoutBuf := "", stderrBuf := "" },
                 { output := some (rstripNL (pyReplaceAll residOut sentinel "")),
                   error := some (filterErrorOutput residErr),
                   base64Image := none,
                   system := some ("Command completed despite stream reading issue. Session ID: " ++
                     toString s1.sessionId) })
            else
              .ok
                ({ s1 with partialOutput := residOut, partialError := residErr,
                           lastCommand := command, isRunningCommand := false,
                           stdoutBuf := "", stderrBuf := "" },
                 { output := some residOut,
                   error := some (filterErrorOutput residErr),
                   base64Image := none,
                   system := some ("Stream reading error: " ++ msg ++
                     ". Command may have failed or produced output exceeding buffer limits.") })

/-! ### Session allocation (`BashTool.__call__`)

The session map is an association list `id ↦ is_running_command`. -/

/-- Lookup in the session map. -/
def sessionLookup : List (Nat × Bool) → Nat → Option Bool
  | [], _ => none
  | (k, b) :: rest, i => if k = i then some b else sessionLookup rest i

/-- A session id the allocation loop may pick: absent from the map, or
present and idle. -/
def isFree (m : List (Nat × Bool)) (i : Nat) : Bool :=
  match sessionLookup m i with
  | some true => false
  | _ => true

/-- The largest key of the map (0 for the empty map). -/
def maxKey : List (Nat × Bool) → Nat
  | [] => 0
  | (k, _) :: rest => max k (maxKey rest)

/-- The `while True` id-search of `BashTool.__call__`, fuelled: the Python
loop stops at the first free id, and `maxKey m + 1` steps always reach
one (every id beyond the largest key is absent). -/
def allocLoop (m : List (Nat × Bool)) : Nat → Nat → Nat
  | i, 0 => i
  | i, fuel + 1 => if isFree m i then i else allocLoop m (i + 1) fuel

/-- The id `BashTool.__call__` picks when a command arrives with no
session id: the search starts at 1. -/
def allocId (m : List (Nat × Bool)) : Nat :=
  allocLoop m 1 (maxKey m + 1)

/-- The `created_msg` recorded when the chosen id was absent. -/
def createdMsgStr (i : Nat) : String := "Created new session with ID: " ++ toString i

/-- The annotation of the final result (lines 725–734): a `CLIResult`
gets `created_msg`, prefixed to its own `system` when that is truthy;
any other result is returned untouched. -/
def annotateCreated (createdMsg : Option String) (isCLI : Bool) (r : ToolResultM) : ToolResultM :=
  match createdMsg with
  | none => r
  | some c =>
    if isCLI then
      { r with system := some (if r.system.getD "" = "" then c else c ++ ". " ++ r.system.getD "") }
    else r

/-! ### Streaming reader (`_BashSession.stream_command`)

The stdout `_reader` task, driven by the list of chunks `stream.read(256)`
returns (an empty chunk is EOF).  The result is the list of chunks put on
the queue and whether the terminating `None` was enqueued. -/

/-- One run of the stdout reader over its incoming chunks. -/
def readerLoop (buffer : String) : List String → List String × Bool
  | [] => ([], false)
  | c :: rest =>
    if c = "" then ([], false)
    else if pyContains (buffer ++ c) sentinel then
      (if takeBeforeStr (buffer ++ c) sentinel = "" then []
       else [takeBeforeStr (buffer ++ c) sentinel], true)
    else if buffer ++ c = "" then readerLoop (buffer ++ c) rest
    else ((buffer ++ c) :: (readerLoop "" rest).1, (readerLoop "" rest).2)

/-! ### Helper lemmas -/

theorem lpre_append_right (pat : List Char) :
    ∀ (s t : List Char), lpre pat s = true → lpre pat (s ++ t) = true := by
  induction pat with
  | nil => intro s t _; simp [lpre]
  | cons p ps ih =>
    intro s t h
    cases s with
    | nil => simp [lpre] at h
    | cons c cs =>
      simp only [lpre, Bool.and_eq_true, decide_eq_true_eq] at h ⊢
      exact ⟨h.1, ih cs t h.2⟩

theorem containsL_nil_pat : ∀ (s : List Char), containsL [] s = true := by
  intro s
  cases s with
  | nil => rfl
  | cons c cs => simp [containsL, lpre]

theorem containsL_append_left (pat : List Char) :
    ∀ (a b : List Char), containsL pat a = true → containsL pat (a ++ b) = true := by
  intro a
  induction a with
  | nil =>
    intro b h
    simp only [containsL] at h
    cases pat with
    | nil => simpa using containsL_nil_pat b
    | cons p ps => simp [lpre] at h
  | cons c cs ih =>
    intro b h
    simp only [containsL, Bool.or_eq_true] at h ⊢
    rcases h with h | h
    · exact Or.inl (lpre_append_right pat (c :: cs) b h)
    · exact Or.inr (ih b h)

theorem containsL_append_right (pat : List Char) :
    ∀ (a b : List Char), containsL pat b = true → containsL pat (a ++ b) = true := by
  intro a
  induction a with
  | nil => intro b h; simpa using h
  | cons c cs ih =>
    intro b h
    simp only [List.cons_append, containsL, Bool.or_eq_true]
    exact Or.inr (ih b h)

theorem lpre_append_drop (pat : List Char) :
    ∀ (s : List Char), lpre pat s = true → pat ++ s.drop pat.length = s := by
  induction pat with
  | nil => intro s _; simp
  | cons p ps ih =>
    intro s h
    cases s with
    | nil => simp [lpre] at h
    | cons c cs =>
      simp only [lpre, Bool.and_eq_true, decide_eq_true_eq] at h
      simp only [List.cons_append, List.length_cons, List.drop_succ_cons, h.1]
      exact congrArg (c :: ·) (ih cs h.2)

theorem replaceFirstGo_self (pat : List Char) :
    ∀ (s : List Char), replaceFirstGo pat pat s = s := by
  intro s
  induction s with
  | nil => rfl
  | cons c cs ih =>
    simp only [replaceFirstGo]
    by_cases h : lpre pat (c :: cs) = true
    · simp only [h, if_true]
      exact lpre_append_drop pat (c :: cs) h
    · simp only [h, if_false]
      exact congrArg (c :: ·) ih

theorem pyReplaceFirst_self (s pat : String) : pyReplaceFirst s pat pat = s := by
  unfold pyReplaceFirst
  by_cases hp : pat = ""
  · subst hp
    simp only [if_true]
    exact String.ext (by simp)
  · simp only [hp, if_false]
    calc (⟨replaceFirstGo pat.data pat.data s.data⟩ : String)
        = ⟨s.data⟩ := congrArg String.mk (replaceFirstGo_self pat.data s.data)
      _ = s := rfl

theorem pushHistory_getLast (hist : List String) (content : String) :
    (pushHistory hist content).getLast? = some content := by
  unfold pushHistory
  by_cases h : (hist ++ [content]).length > 2
  · simp only [h, if_true]
    cases hist with
    | nil => simp at h
    | cons x xs => simp [List.getLast?_concat]
  · simp only [h, if_false]
    exact List.getLast?_concat hist

theorem pushHistory_ne_nil (hist : List String) (content : String) :
    pushHistory hist content ≠ [] := by
  intro h
  have := pushHistory_getLast hist content
  rw [h] at this
  simp at this

theorem pushHistory_length_le (hist : List String) (content : String)
    (h : hist.length ≤ 2) : (pushHistory hist content).length ≤ 2 := by
  unfold pushHistory
  split
  · simp only [List.length_drop, List.length_append, List.length_cons, List.length_nil]
    omega
  · rename_i hc
    simp only [gt_iff_lt, not_lt, List.length_append, List.length_cons, List.length_nil] at hc
    simp only [List.length_append, List.length_cons, List.length_nil]
    omega

theorem replaceOp_inv {content old new : String} {allOccurrences : Bool}
    {hist : List String} {c2 : String} {h2 : List String}
    (h : replaceOp content old new allOccurrences hist = .ok (c2, h2)) :
    h2 = pushHistory hist content := by
  unfold replaceOp at h
  repeat' split at h
  all_goals simp_all

theorem insertOp_inv {content text : String} {line : Nat}
    {hist : List String} {c2 : String} {h2 : List String}
    (h : insertOp content line text hist = .ok (c2, h2)) :
    c2 = joinNL (pyInsert (pySplitlines content) (line - 1) text) ∧
      h2 = pushHistory hist content := by
  unfold insertOp at h
  split at h
  · simp_all
  · simp only [Except.ok.injEq, Prod.mk.injEq] at h
    exact ⟨h.1.symm, h.2.symm⟩

theorem deleteLinesOp_inv {content : String} {toDelete : List Nat}
    {hist : List String} {c2 : String} {h2 : List String}
    (h : deleteLinesOp content toDelete hist = .ok (c2, h2)) :
    c2 = joinNL (keepLines content toDelete) ∧ h2 = pushHistory hist content := by
  unfold deleteLinesOp at h
  simp only [Except.ok.injEq, Prod.mk.injEq] at h
  exact ⟨h.1.symm, h.2.symm⟩

theorem sessionLookup_gt_maxKey (m : List (Nat × Bool)) :
    ∀ (i : Nat), maxKey m < i → sessionLookup m i = none := by
  induction m with
  | nil => intro i _; rfl
  | cons kb rest ih =>
    intro i hi
    obtain ⟨k, b⟩ := kb
    simp only [maxKey, max_lt_iff] at hi
    simp only [sessionLookup]
    rw [if_neg (by omega)]
    exact ih i hi.2

theorem isFree_gt_maxKey (m : List (Nat × Bool)) (i : Nat) (hi : maxKey m < i) :
    isFree m i = true := by
  unfold isFree
  rw [sessionLookup_gt_maxKey m i hi]

theorem allocLoop_ge (m : List (Nat × Bool)) :
    ∀ (fuel i : Nat), i ≤ allocLoop m i fuel := by
  intro fuel
  induction fuel with
  | zero => intro i; exact Nat.le_refl i
  | succ fuel ih =>
    intro i
    unfold allocLoop
    split
    · exact Nat.le_refl i
    · exact Nat.le_trans (Nat.le_succ i) (ih (i + 1))

theorem allocLoop_free (m : List (Nat × Bool)) :
    ∀ (fuel i : Nat), maxKey m < i + fuel → isFree m (allocLoop m i fuel) = true := by
  intro fuel
  induction fuel with
  | zero =>
    intro i hi
    simpa [allocLoop] using isFree_gt_maxKey m i (by omega)
  | succ fuel ih =>
    intro i hi
    unfold allocLoop
    split
    · assumption
    · exact ih (i + 1) (by omega)

theorem allocLoop_min (m : List (Nat × Bool)) :
    ∀ (fuel i j : Nat), i ≤ j → j < allocLoop m i fuel → isFree m j = false := by
  intro fuel
  induction fuel with
  | zero =>
    intro i j hij hj
    simp only [allocLoop] at hj
    omega
  | succ fuel ih =>
    intro i j hij hj
    unfold allocLoop at hj
    split at hj
    · omega
    · rcases Nat.eq_or_lt_of_le hij with rfl | hlt
      · rename_i hfree
        simpa using hfree
      · exact ih (i + 1) j hlt hj

theorem timeoutMessage_contains (t i : Nat) :
    pyContains (timeoutSystemMessage t i) "will continue to run in session" = true := by
  unfold timeoutSystemMessage pyContains
  rw [String.data_append, String.data_append, String.data_append]
  apply containsL_append_left
  apply containsL_append_left
  apply containsL_append_right
  decide

theorem splitCharGo_no_sep (sep : Char) :
    ∀ (l acc : List Char), sep ∉ acc →
      ∀ x ∈ splitCharGo sep acc l, sep ∉ x := by
  intro l
  induction l with
  | nil =>
    intro acc hacc x hx
    simp only [splitCharGo, List.mem_singleton] at hx
    subst hx
    simpa using hacc
  | cons c rest ih =>
    intro acc hacc x hx
    simp only [splitCharGo] at hx
    by_cases hc : c = sep
    · simp only [hc, if_true, List.mem_cons] at hx
      rcases hx with rfl | hx
      · simpa using hacc
      · exact ih [] (by simp) x hx
    · simp only [hc, if_false] at hx
      refine ih (c :: acc) ?_ x hx
      intro hmem
      rcases List.mem_cons.mp hmem with rfl | hmem2
      · exact hc rfl
      · exact hacc hmem2

theorem mem_pySplitlines_no_nl (s : String) :
    ∀ x ∈ pySplitlines s, '\n' ∉ x.data := by
  intro x hx
  unfold pySplitlines at hx
  rcases hs : s.data with _ | ⟨c, cs⟩
  · simp [hs] at hx
  · rw [hs] at hx
    simp only [List.mem_map] at hx
    obtain ⟨cs2, hmem, rfl⟩ := hx
    have hsub : cs2 ∈ splitCharGo '\n'
        [] (pyReplaceAll (pyReplaceAll s "\r\n" "\n") "\r" "\n").data := by
      rcases hmem2 : (if (splitCharGo '\n'
          [] (pyReplaceAll (pyReplaceAll s "\r\n" "\n") "\r" "\n").data).getLast? = some [] then
            (splitCharGo '\n'
              [] (pyReplaceAll (pyReplaceAll s "\r\n" "\n") "\r" "\n").data).dropLast
          else
            splitCharGo '\n'
              [] (pyReplaceAll (pyReplaceAll s "\r\n" "\n") "\r" "\n").data) with L
      rw [hmem2] at hmem
      split at hmem2
      · subst hmem2
        exact (List.dropLast_sublist _).subset hmem
      · subst hmem2
        exact hmem
    exact splitCharGo_no_sep '\n' _ [] (by simp) cs2 hsub

theorem keepLinesGo_subset (toDelete : List Nat) :
    ∀ (L : List String) (i : Nat) (x : String), x ∈ keepLinesGo toDelete i L → x ∈ L := by
  intro L
  induction L with
  | nil => intro i x hx; simp [keepLinesGo] at hx
  | cons l rest ih =>
    intro i x hx
    simp only [keepLinesGo] at hx
    split at hx
    · exact List.mem_cons_of_mem l (ih (i + 1) x hx)
    · rcases List.mem_cons.mp hx with rfl | hx2
      · exact List.mem_cons_self x rest
      · exact List.mem_cons_of_mem l (ih (i + 1) x hx2)

theorem intercalate_cons_cons (sep a b : List Char) (l : List (List Char)) :
    List.intercalate sep (a :: b :: l) = a ++ (sep ++ List.intercalate sep (b :: l)) := by
  simp [List.intercalate, List.intersperse]

theorem getLast?_intercalateNL :
    ∀ (L : List (List Char)) (lastL : List Char), L.getLast? = some lastL → lastL ≠ [] →
      (List.intercalate ['\n'] L).getLast? = lastL.getLast? := by
  intro L
  induction L with
  | nil => intro lastL h; simp at h
  | cons a rest ih =>
    intro lastL h hne
    cases rest with
    | nil =>
      simp only [List.getLast?_singleton, Option.some.injEq] at h
      subst h
      simp [List.intercalate, List.intersperse]
    | cons b l =>
      rw [List.getLast?_cons_cons] at h
      have hX : (List.intercalate ['\n'] (b :: l)).getLast? = lastL.getLast? := ih lastL h hne
      have hXne : List.intercalate ['\n'] (b :: l) ≠ [] := by
        intro h0
        rw [h0] at hX
        simp only [List.getLast?_nil] at hX
        exact hne (by
          cases lastL with
          | nil => rfl
          | cons y ys => simp [List.getLast?_concat, List.getLast?] at hX)
      rw [intercalate_cons_cons]
      rw [List.getLast?_append_of_ne_nil a (by simp)]
      rw [List.getLast?_append_of_ne_nil ['\n'] hXne]
      exact hX

theorem joinNL_not_endsWithNL (L : List String) (lastL : String)
    (h : L.getLast? = some lastL) (hne : lastL ≠ "") (hnl : '\n' ∉ lastL.data) :
    endsWithNL (joinNL L) = false := by
  unfold endsWithNL joinNL
  have hmap : (L.map String.data).getLast? = some lastL.data := by
    rw [List.getLast?_map, h]
    rfl
  have hdne : lastL.data ≠ [] := fun h0 => hne (String.ext h0)
  rw [show (String.mk (List.intercalate ['\n'] (L.map String.data))).data
      = List.intercalate ['\n'] (L.map String.data) from rfl]
  rw [getLast?_intercalateNL (L.map String.data) lastL.data hmap hdne]
  rcases hlast : lastL.data.getLast? with _ | c
  · rfl
  · have hc : c ∈ lastL.data := by
      obtain ⟨hne2, hx⟩ := List.mem_getLast?_eq_getLast (l := lastL.data) (x := c) (by simp [hlast])
      exact hx ▸ List.getLast_mem hne2
    simp only []
    by_contra hcontra
    simp only [Bool.not_eq_false, decide_eq_true_eq] at hcontra
    exact hnl (hcontra ▸ hc)

theorem undo_after_push (hist : List String) (content : String) :
    undoOp (pushHistory hist content) = .ok (content, (pushHistory hist content).dropLast) ∧
      (pushHistory hist content).dropLast.length + 1 = (pushHistory hist content).length := by
  constructor
  · unfold undoOp
    rw [pushHistory_getLast hist content]
  · rw [List.length_dropLast]
    have h1 : 0 < (pushHistory hist content).length :=
      List.length_pos.mpr (pushHistory_ne_nil hist content)
    omega

/-! ### The claims -/

/-- C1 counterexample: the absolute request
`/project/workspace/../../etc/passwd` passes `_validate_path`'s textual
prefix check unresolved and is accepted, yet its resolved form
`/etc/passwd` is no descendant of the workspace root — the claim that
every accepted path resolves below the root is false. -/
theorem c1_escape_accepted_counterexample :
    validate_path workspaceDir "/project/workspace/../../etc/passwd" =
      .ok "/project/workspace/../../etc/passwd" ∧
    isDescendant (resolveAbs "/project/workspace/../../etc/passwd") workspaceDir = false :=
  ⟨rfl, rfl⟩

/-- C1 (amended): every path `_validate_path` accepts begins textually
with the workspace root; a relative input is resolved against the base
before the check, but an absolute input is used verbatim, so an
accepted absolute path containing `..` segments may still resolve
outside the root. -/
theorem c1_validate_path_prefix (base p fp : String)
    (h : validate_path base p = .ok fp) :
    strStartsWith fp base = true ∧
    (isAbsolutePath p = true → fp = p) ∧
    (isAbsolutePath p = false → fp = resolveAbs (base ++ "/" ++ p)) := by
  unfold validate_path at h
  by_cases habs : isAbsolutePath p = true
  · rw [if_pos habs] at h
    by_cases hpre : strStartsWith p base = true
    · rw [if_pos hpre] at h
      injection h with h2
      subst h2
      exact ⟨hpre, fun _ => rfl, fun hf => by rw [habs] at hf; cases hf⟩
    · rw [if_neg hpre] at h
      cases h
  · have habs2 : isAbsolutePath p = false := by
      cases hx : isAbsolutePath p
      · rfl
      · exact absurd hx habs
    rw [if_neg habs] at h
    by_cases hpre : strStartsWith (resolveAbs (base ++ "/" ++ p)) base = true
    · rw [if_pos hpre] at h
      injection h with h2
      subst h2
      exact ⟨hpre, fun hf => absurd hf habs, fun _ => rfl⟩
    · rw [if_neg hpre] at h
      cases h

/-- C1 witness: the relative path `sub/notes.txt` is accepted and
resolves below the workspace root. -/
theorem c1_validate_path_prefix_witness :
    strStartsWith "/project/workspace/sub/notes.txt" workspaceDir = true ∧
    (isAbsolutePath "sub/notes.txt" = true → "/project/workspace/sub/notes.txt" = "sub/notes.txt") ∧
    (isAbsolutePath "sub/notes.txt" = false →
      "/project/workspace/sub/notes.txt" = resolveAbs (workspaceDir ++ "/" ++ "sub/notes.txt")) :=
  c1_validate_path_prefix workspaceDir "sub/notes.txt" "/project/workspace/sub/notes.txt" rfl

/-- C2 counterexample: a third return mode exists inside the claim's
scope.  On a started, idle session with a live subprocess, a stream
read error (`IncompleteReadError`/`ConnectionResetError`, e.g. after
the command `exit` kills the shell before the sentinel is echoed) makes
`run` return before any timeout with the busy flag false, no sentinel
observed in the harvested residue, and a `Stream reading error`
diagnostic — neither of the claim's two permitted return shapes. -/
theorem c2_stream_error_counterexample :
    runModel
      { started := true, isRunningCommand := false, lastCommand := "", partialOutput := "",
        partialError := "", returncode := none, stdoutBuf := "", stderrBuf := "", sessionId := 3 }
      "exit" 10
      (.streamError "0 bytes read on a total of undefined expected bytes" "" "") =
      .ok
        ({ started := true, isRunningCommand := false, lastCommand := "exit",
           partialOutput := "", partialError := "", returncode := none, stdoutBuf := "",
           stderrBuf := "", sessionId := 3 },
         { output := some "", error := some "", base64Image := none,
           system := some "Stream reading error: 0 bytes read on a total of undefined expected bytes. Command may have failed or produced output exceeding buffer limits." }) ∧
    pyContains "" sentinel = false ∧
    some "Stream reading error: 0 bytes read on a total of undefined expected bytes. Command may have failed or produced output exceeding buffer limits." ≠
      some (timeoutSystemMessage 10 3) :=
  ⟨rfl, rfl, by decide⟩

/-- C2 (amended): on a started, idle session with a live subprocess,
`run` returns in one of three ways.  Sentinel observed: busy is false
on return.  Timeout elapsed: busy stays true, the result's `system` is
the timeout message (which says the command will continue to run in
the session), and the bytes pending on stdout stay in the session's
buffer for later polls.  Stream read error: `run` returns before the
timeout with busy false — a success annotated `Command completed
despite stream reading issue` when the harvested residue contains the
sentinel, and otherwise a `Stream reading error` diagnostic. -/
theorem c2_run_three_return_modes (s : SessionState) (cmd : String) (t : Nat)
    (preOut errD aOut aErr msg residOut residErr : String)
    (hs : s.started = true) (hb : s.isRunningCommand = false) (hrc : s.returncode = none) :
    (∃ s2 r, runModel s cmd t (.sentinelRead preOut errD) = .ok (s2, r) ∧
       s2.isRunningCommand = false) ∧
    (∃ s2 r, runModel s cmd t (.timedOut aOut aErr) = .ok (s2, r) ∧
       s2.isRunningCommand = true ∧
       r.system = some (timeoutSystemMessage t s.sessionId) ∧
       pyContains (timeoutSystemMessage t s.sessionId) "will continue to run in session" = true ∧
       s2.stdoutBuf = aOut ∧ r.output = some "") ∧
    (pyContains residOut sentinel = false →
       ∃ s2 r, runModel s cmd t (.streamError msg residOut residErr) = .ok (s2, r) ∧
         s2.isRunningCommand = false ∧ r.output = some residOut ∧
         r.system = some ("Stream reading error: " ++ msg ++
           ". Command may have failed or produced output exceeding buffer limits.")) ∧
    (pyContains residOut sentinel = true →
       ∃ s2 r, runModel s cmd t (.streamError msg residOut residErr) = .ok (s2, r) ∧
         s2.isRunningCommand = false ∧
         r.system = some ("Command completed despite stream reading issue. Session ID: " ++
           toString s.sessionId)) := by
  have hcheck : (checkCommandCompletion s).1 = s := by
    unfold checkCommandCompletion
    simp [hb]
  unfold runModel
  simp only [hs, Bool.true_eq_false, if_false, hcheck, hrc, hb, Bool.false_eq_true]
  refine ⟨⟨_, _, rfl, rfl⟩,
    ⟨_, _, rfl, rfl, rfl, timeoutMessage_contains t s.sessionId, rfl, rfl⟩, ?_, ?_⟩
  · intro hres
    simp only [hres, Bool.false_eq_true, if_false]
    exact ⟨_, _, rfl, rfl, rfl, rfl⟩
  · intro hres
    simp only [hres, if_true]
    exact ⟨_, _, rfl, rfl, rfl⟩

/-- C2 witness: the three return modes at a concrete idle session with
id 3, the stream-error residue being empty (no sentinel). -/
theorem c2_run_three_return_modes_witness :
    (∃ s2 r, runModel
        { started := true, isRunningCommand := false, lastCommand := "", partialOutput := "",
          partialError := "", returncode := none, stdoutBuf := "", stderrBuf := "", sessionId := 3 }
        "exit" 10 (.sentinelRead "" "") = .ok (s2, r) ∧
       s2.isRunningCommand = false) ∧
    (∃ s2 r, runModel
        { started := true, isRunningCommand := false, lastCommand := "", partialOutput := "",
          partialError := "", returncode := none, stdoutBuf := "", stderrBuf := "", sessionId := 3 }
        "exit" 10 (.timedOut "partial" "") = .ok (s2, r) ∧
       s2.isRunningCommand = true ∧
       r.system = some (timeoutSystemMessage 10 3) ∧
       pyContains (timeoutSystemMessage 10 3) "will continue to run in session" = true ∧
       s2.stdoutBuf = "partial" ∧ r.output = some "") ∧
    (pyContains "" sentinel = false →
       ∃ s2 r, runModel
          { started := true, isRunningCommand := false, lastCommand := "", partialOutput := "",
            partialError := "", returncode := none, stdoutBuf := "", stderrBuf := "",
            sessionId := 3 }
          "exit" 10
          (.streamError "0 bytes read on a total of undefined expected bytes" "" "") =
            .ok (s2, r) ∧
         s2.isRunningCommand = false ∧ r.output = some "" ∧
         r.system = some ("Stream reading error: " ++
           "0 bytes read on a total of undefined expected bytes" ++
           ". Command may have failed or produced output exceeding buffer limits.")) ∧
    (pyContains "" sentinel = true →
       ∃ s2 r, runModel
          { started := true, isRunningCommand := false, lastCommand := "", partialOutput := "",
            partialError := "", returncode := none, stdoutBuf := "", stderrBuf := "",
            sessionId := 3 }
          "exit" 10
          (.streamError "0 bytes read on a total of undefined expected bytes" "" "") =
            .ok (s2, r) ∧
         s2.isRunningCommand = false ∧
         r.system = some ("Command completed despite stream reading issue. Session ID: " ++
           toString 3)) :=
  c2_run_three_return_modes
    { started := true, isRunningCommand := false, lastCommand := "", partialOutput := "",
      partialError := "", returncode := none, stdoutBuf := "", stderrBuf := "", sessionId := 3 }
    "exit" 10 "" "" "partial" "" "0 bytes read on a total of undefined expected bytes" "" ""
    rfl rfl rfl

/-- C3: when a command arrives with no session id, the allocation loop
picks the smallest positive id that is absent from the session map or
present and idle; on the empty map it picks 1, the id is absent (so a
session is created), and the annotated `system` field of the response is
exactly `Created new session with ID: 1`. -/
theorem c3_smallest_free_session_id (m : List (Nat × Bool)) :
    (1 ≤ allocId m ∧ isFree m (allocId m) = true ∧
      ∀ j, 1 ≤ j → j < allocId m → isFree m j = false) ∧
    (allocId [] = 1 ∧ sessionLookup [] 1 = none ∧
      (annotateCreated (some (createdMsgStr 1)) true
        { output := some "hi", error := some "", base64Image := none, system := none }).system =
        some "Created new session with ID: 1") := by
  refine ⟨⟨allocLoop_ge m (maxKey m + 1) 1,
    allocLoop_free m (maxKey m + 1) 1 (by omega), ?_⟩, rfl, rfl, rfl⟩
  intro j h1 hj
  exact allocLoop_min m (maxKey m + 1) 1 j h1 hj

/-- C4: starting from a history of at most two snapshots, every
successful `replace`, `insert` or `delete_lines` leaves at most two
snapshots, the newest being the content just before the edit. -/
theorem c4_history_capped_at_two (content old new text : String) (allOccurrences : Bool)
    (line : Nat) (toDelete : List Nat) (hist : List String) (hlen : hist.length ≤ 2) :
    (∀ c2 h2, replaceOp content old new allOccurrences hist = .ok (c2, h2) →
       h2.length ≤ 2 ∧ h2.getLast? = some content) ∧
    (∀ c2 h2, insertOp content line text hist = .ok (c2, h2) →
       h2.length ≤ 2 ∧ h2.getLast? = some content) ∧
    (∀ c2 h2, deleteLinesOp content toDelete hist = .ok (c2, h2) →
       h2.length ≤ 2 ∧ h2.getLast? = some content) := by
  refine ⟨?_, ?_, ?_⟩ <;> intro c2 h2 h
  · rw [replaceOp_inv h]
    exact ⟨pushHistory_length_le hist content hlen, pushHistory_getLast hist content⟩
  · rw [(insertOp_inv h).2]
    exact ⟨pushHistory_length_le hist content hlen, pushHistory_getLast hist content⟩
  · rw [(deleteLinesOp_inv h).2]
    exact ⟨pushHistory_length_le hist content hlen, pushHistory_getLast hist content⟩

/-- C4 witness: replacing `a` by `b` in `ab` with a full two-entry
history evicts the oldest snapshot and keeps the pre-edit content on
top. -/
theorem c4_history_capped_at_two_witness :
    (["y", "ab"] : List String).length ≤ 2 ∧
      (["y", "ab"] : List String).getLast? = some "ab" :=
  (c4_history_capped_at_two "ab" "a" "b" "" false 1 [] ["x", "y"] (by decide)).1 "bb" ["y", "ab"] rfl

/-- C5: `undo` right after a successful `replace`, `insert` or
`delete_lines` restores the pre-edit content bit for bit and shortens
the history by exactly one entry; `undo` with no history fails with the
no-history error. -/
theorem c5_undo_restores (content old new text : String) (allOccurrences : Bool)
    (line : Nat) (toDelete : List Nat) (hist : List String) :
    (∀ c2 h2, replaceOp content old new allOccurrences hist = .ok (c2, h2) →
       undoOp h2 = .ok (content, h2.dropLast) ∧ h2.dropLast.length + 1 = h2.length) ∧
    (∀ c2 h2, insertOp content line text hist = .ok (c2, h2) →
       undoOp h2 = .ok (content, h2.dropLast) ∧ h2.dropLast.length + 1 = h2.length) ∧
    (∀ c2 h2, deleteLinesOp content toDelete hist = .ok (c2, h2) →
       undoOp h2 = .ok (content, h2.dropLast) ∧ h2.dropLast.length + 1 = h2.length) ∧
    undoOp [] = .error "No undo history available" := by
  refine ⟨?_, ?_, ?_, rfl⟩ <;> intro c2 h2 h
  · rw [replaceOp_inv h]
    exact undo_after_push hist content
  · rw [(insertOp_inv h).2]
    exact undo_after_push hist content
  · rw [(deleteLinesOp_inv h).2]
    exact undo_after_push hist content

/-- C6: on a file with no exact match whose normalised form matches
`old_str` exactly once, `replace` rewrites on the normalised text and —
when the original content carries `\r\n` — converts the result back to
`\r\n`; in particular on `A\r\nB\r\n`, replacing `A\nB` by `C\nD`
succeeds with result `C\r\nD\r\n`. -/
theorem c6_crlf_tolerant_replace (content old new : String) (hist : List String)
    (hexact : pyContains content old = false)
    (hnorm : pyContains (normEOL content) (normEOL old) = true)
    (hcount : pyCount (normEOL content) (normEOL old) = 1)
    (hcrlf : pyContains content "\r\n" = true) :
    replaceOp content old new false hist =
      .ok (pyReplaceAll (pyReplaceFirst (normEOL content) (normEOL old) (normEOL new)) "\n" "\r\n",
           pushHistory hist content) ∧
    replaceOp "A\r\nB\r\n" "A\nB" "C\nD" false [] = .ok ("C\r\nD\r\n", ["A\r\nB\r\n"]) := by
  constructor
  · unfold replaceOp
    simp [hexact, hnorm, hcount, hcrlf]
  · rfl

/-- C6 witness: the literal CRLF scenario of the claim. -/
theorem c6_crlf_tolerant_replace_witness :
    replaceOp "A\r\nB\r\n" "A\nB" "C\nD" false [] = .ok ("C\r\nD\r\n", ["A\r\nB\r\n"]) :=
  (c6_crlf_tolerant_replace "A\r\nB\r\n" "A\nB" "C\nD" [] rfl rfl rfl rfl).2

/-- C7 counterexample: replacing the single `x` of file content `x` by
`x` leaves the content unchanged but pushes an undo entry — the history
grows from empty to one snapshot, so `pushes no entry` is false. -/
theorem c7_noop_pushes_counterexample :
    replaceOp "x" "x" "x" false [] = .ok ("x", ["x"]) ∧ (["x"] : List String) ≠ [] :=
  ⟨rfl, by decide⟩

/-- C7 (amended): with a unique match and `new_str = old_str`, `replace`
leaves the content unchanged — but it still pushes the previous content
onto the undo history, exactly as every successful replace does. -/
theorem c7_noop_on_content_still_pushes (content old : String) (hist : List String)
    (hc : pyContains content old = true) (hcount : ¬ pyCount content old > 1) :
    replaceOp content old old false hist = .ok (content, pushHistory hist content) ∧
    (pushHistory hist content).getLast? = some content := by
  refine ⟨?_, pushHistory_getLast hist content⟩
  unfold replaceOp
  simp [hc, hcount, pyReplaceFirst_self]

/-- C7 witness: replacing `ell` by itself in `hello` with one prior
snapshot. -/
theorem c7_noop_on_content_still_pushes_witness :
    replaceOp "hello" "ell" "ell" false ["p"] = .ok ("hello", ["p", "hello"]) ∧
    (["p", "hello"] : List String).getLast? = some "hello" :=
  c7_noop_on_content_still_pushes "hello" "ell" ["p"] rfl (by decide)

/-- C8 counterexample: when the sentinel `<<exit>>` is split across the
reads `abc<<ex` and `it>>`, the stream reader emits both chunks verbatim
and never terminates — instead of emitting `abc` and terminating as the
claim requires — because the reader clears its buffer after every
emission. -/
theorem c8_split_sentinel_counterexample :
    readerLoop "" ["abc<<ex", "it>>"] = (["abc<<ex", "it>>"], false) ∧
    ((["abc<<ex", "it>>"], false) : List String × Bool) ≠ (["abc"], true) :=
  ⟨rfl, by decide⟩

/-- C8 (amended): chunks are emitted immediately and, when a single
read's chunk contains the whole sentinel, the prefix of that chunk
before the sentinel is emitted (when non-empty) and the stream
terminates; a sentinel split across two reads is not detected, because
the buffer is reset after every emission. -/
theorem c8_sentinel_within_one_chunk (good : List String) (c : String) (rest : List String)
    (hg : ∀ g ∈ good, pyContains g sentinel = false ∧ g ≠ "")
    (hc : pyContains c sentinel = true) :
    readerLoop "" (good ++ c :: rest) =
      (good ++ (if takeBeforeStr c sentinel = "" then [] else [takeBeforeStr c sentinel]), true) := by
  induction good with
  | nil =>
    have hcne : ¬ c = "" := by
      intro h0
      subst h0
      exact absurd hc (by decide)
    simp only [List.nil_append]
    unfold readerLoop
    simp only [show ("" ++ c : String) = c from rfl, hcne, if_false, hc, if_true]
  | cons g gs ih =>
    have hgood := hg g (List.mem_cons_self g gs)
    have hgne : ¬ g = "" := hgood.2
    simp only [List.cons_append]
    unfold readerLoop
    simp only [show ("" ++ g : String) = g from rfl, hgne, if_false, hgood.1,
      Bool.false_eq_true]
    rw [ih (fun x hx => hg x (List.mem_cons_of_mem g hx))]

/-- C8 witness: a whole-sentinel chunk after one output chunk emits the
output and terminates the stream. -/
theorem c8_sentinel_within_one_chunk_witness :
    readerLoop "" ["1\n2\n3\n", "<<exit>>\n"] = (["1\n2\n3\n"], true) :=
  c8_sentinel_within_one_chunk ["1\n2\n3\n"] "<<exit>>\n" [] (by decide) rfl

/-- C9 counterexample: a `replace` request whose path escapes the
workspace fails with a `ToolError`, yet `POST /file` answers HTTP 200
with the error inside the envelope — not HTTP 400 — because
`FileTool.__call__` catches the `ToolError` before the endpoint's
400 mapping can see it. -/
theorem c9_tool_error_is_http_200 :
    file_action (replaceEndpointBody workspaceDir "/etc/passwd" "aa" "bb" false "" []) =
      .success { output := none,
                 error := some "Invalid path: Path is outside the allowed base directory",
                 base64Image := none, system := none } ∧
    httpStatus (file_action (replaceEndpointBody workspaceDir "/etc/passwd" "aa" "bb" false "" [])) =
      200 ∧
    (200 : Nat) ≠ 400 :=
  ⟨rfl, rfl, by decide⟩

/-- C9 (amended): every `ToolError` a file operation raises is converted
by `FileTool.__call__` into an error envelope, so `POST /file` responds
HTTP 200 carrying the message in the envelope's `error` field; the
endpoint's 400 mapping for `ToolError` is unreachable. -/
theorem c9_tool_error_envelope (m : String) :
    file_action (.error m) =
      .success { output := none, error := some m, base64Image := none, system := none } ∧
    httpStatus (file_action (.error m)) = 200 :=
  ⟨rfl, rfl⟩

/-- C10 counterexample: inserting the text `b\n` as the new last line of
file `a` yields `a\nb\n`, which ends with a newline — refuting the claim
that the joined result never ends with one. -/
theorem c10_trailing_newline_counterexample :
    insertOp "a" 2 "b\n" [] = .ok ("a\nb\n", ["a"]) ∧ endsWithNL "a\nb\n" = true :=
  ⟨rfl, rfl⟩

/-- C10 (amended): successful `insert` and `delete_lines` write exactly
the `\n`-join of the resulting line list, so a trailing newline of the
prior content is dropped (deleting line 2 of `a\nb\n` gives `a`,
inserting `b` after `a\n` gives `a\nb`); the result ends with a newline
only when the final joined element itself is empty or ends with one
(e.g. a newline-carrying inserted text), and in particular a
`delete_lines` result whose last kept line is non-empty never ends with
a newline. -/
theorem c10_join_drops_trailing_newline :
    (∀ (content text : String) (line : Nat) (hist : List String) (c2 : String) (h2 : List String),
       insertOp content line text hist = .ok (c2, h2) →
       c2 = joinNL (pyInsert (pySplitlines content) (line - 1) text)) ∧
    (∀ (content : String) (toDelete : List Nat) (hist : List String) (c2 : String)
        (h2 : List String),
       deleteLinesOp content toDelete hist = .ok (c2, h2) →
       c2 = joinNL (keepLines content toDelete) ∧
       ∀ lastL, (keepLines content toDelete).getLast? = some lastL → lastL ≠ "" →
         endsWithNL c2 = false) ∧
    deleteLinesOp "a\nb\n" [2] [] = .ok ("a", ["a\nb\n"]) ∧
    insertOp "a\n" 2 "b" [] = .ok ("a\nb", ["a\n"]) := by
  refine ⟨?_, ?_, rfl, rfl⟩
  · intro content text line hist c2 h2 h
    exact (insertOp_inv h).1
  · intro content toDelete hist c2 h2 h
    refine ⟨(deleteLinesOp_inv h).1, ?_⟩
    intro lastL hlast hne
    rw [(deleteLinesOp_inv h).1]
    have hmem : lastL ∈ keepLines content toDelete := by
      obtain ⟨hne2, hx⟩ :=
        List.mem_getLast?_eq_getLast (l := keepLines content toDelete) (x := lastL)
          (by simp [hlast])
      exact hx ▸ List.getLast_mem hne2
    have hmem2 : lastL ∈ pySplitlines content :=
      keepLinesGo_subset toDelete (pySplitlines content) 1 lastL hmem
    exact joinNL_not_endsWithNL (keepLines content toDelete) lastL hlast hne
      (mem_pySplitlines_no_nl content lastL hmem2)

end BashServer
